import Mathlib

/-!
Verification of `ffn/utils/proofreading.py`.

This file shallowly embeds the navigation, prefetch, review-outcome and
agglomeration-graph-editing logic of the proofreading module and proves the
behavioural claims about it.  Python integers are modelled as `Int` (or `Nat`
where the value is provably non-negative in the source), Python lists as
`List`, Python sets as `Finset`/`Set`, and the Neuroglancer viewer side
effects (status messages, state transactions) as explicit return values where
a claim talks about them.
-/

namespace Proofreading

/-! ### Batch navigator (`Base`)

`Base.__init__` sets `index = 0`, `batch = 1`.  `next_batch` performs
`index += batch; index = min(index, len(todo) - 1)` and `prev_batch` performs
`index -= batch; index = max(0, index)`.
-/

structure Position where
  index : Int
  batch : Int
  deriving DecidableEq

/-- `Base.next_batch` (proofreading.py lines 106-110), restricted to its
effect on the position; the `prefetch`/`update_batch` calls only touch the
viewer. -/
def next_batch (todoLen : Int) (p : Position) : Position :=
  { p with index := min (p.index + p.batch) (todoLen - 1) }

/-- `Base.prev_batch` (proofreading.py lines 112-115). -/
def prev_batch (p : Position) : Position :=
  { p with index := max (p.index - p.batch) 0 }

inductive NavOp where
  | adv
  | ret
  deriving DecidableEq

/-- Apply one navigation event. -/
def navStep (todoLen : Int) (op : NavOp) (p : Position) : Position :=
  match op with
  | .adv => next_batch todoLen p
  | .ret => prev_batch p

/-- Run a finite sequence of `next_batch`/`prev_batch` events. -/
def runNav (todoLen : Int) : List NavOp → Position → Position
  | [], p => p
  | op :: ops, p => runNav todoLen ops (navStep todoLen op p)

theorem next_batch_batch (todoLen : Int) (p : Position) :
    (next_batch todoLen p).batch = p.batch := rfl

theorem prev_batch_batch (p : Position) :
    (prev_batch p).batch = p.batch := rfl

theorem runNav_batch (todoLen : Int) (ops : List NavOp) (p : Position) :
    (runNav todoLen ops p).batch = p.batch := by
  induction ops generalizing p with
  | nil => rfl
  | cons op ops ih =>
    cases op <;> simpa [runNav, navStep] using ih _

theorem navStep_index_bounds (todoLen : Int) (op : NavOp) (p : Position)
    (hlen : 1 ≤ todoLen) (hbatch : 1 ≤ p.batch)
    (hlo : 0 ≤ p.index) (hhi : p.index ≤ todoLen - 1) :
    0 ≤ (navStep todoLen op p).index ∧ (navStep todoLen op p).index ≤ todoLen - 1 := by
  cases op <;> simp [navStep, next_batch, prev_batch] <;> omega

/-- C1: for every store and starting position with `0 ≤ index ≤ len(store)-1`
and `batch ≥ 1`, after any finite sequence of `next_batch`/`prev_batch` calls
the index still satisfies `0 ≤ index ≤ len(store)-1`: both operations saturate
at the store boundary instead of raising. -/
theorem nav_index_in_bounds (todoLen : Int) (p : Position) (ops : List NavOp)
    (hlen : 1 ≤ todoLen) (hbatch : 1 ≤ p.batch)
    (hlo : 0 ≤ p.index) (hhi : p.index ≤ todoLen - 1) :
    0 ≤ (runNav todoLen ops p).index ∧ (runNav todoLen ops p).index ≤ todoLen - 1 := by
  induction ops generalizing p with
  | nil => exact ⟨hlo, hhi⟩
  | cons op ops ih =>
    have hstep := navStep_index_bounds todoLen op p hlen hbatch hlo hhi
    have hb : 1 ≤ (navStep todoLen op p).batch := by
      cases op <;> simpa [navStep, next_batch, prev_batch]
    exact ih (navStep todoLen op p) hb hstep.1 hstep.2

/-- Witness for `nav_index_in_bounds`: a store of 3 items, start at index 0
with batch 2, after advance-advance-retreat. -/
theorem nav_index_in_bounds_witness :
    0 ≤ (runNav 3 [NavOp.adv, NavOp.adv, NavOp.ret] ⟨0, 2⟩).index ∧
      (runNav 3 [NavOp.adv, NavOp.adv, NavOp.ret] ⟨0, 2⟩).index ≤ 3 - 1 :=
  nav_index_in_bounds 3 ⟨0, 2⟩ [NavOp.adv, NavOp.adv, NavOp.ret]
    (by decide) (by decide) (by decide) (by decide)

/-! ### Prefetch scheduler (`Base.prefetch`, proofreading.py lines 144-165)

```
for i in range(self.num_to_prefetch):
  idx = self.index + (i + 1) * self.batch
  if idx >= len(self.todo):
    break
  ... prefetch_states.append(...)
s.prefetch = [PrefetchState(state=st, priority=-i)
              for i, st in enumerate(prefetch_states)]
```

We model each prefetch entry by the store index it targets, paired with the
priority assigned by the final `enumerate` loop.
-/

/-- The loop body of `Base.prefetch`: `n` iterations remain, `i` is the current
0-based loop counter; collects the target index `index + (i+1)*batch` of each
iteration, stopping (`break`) at the first candidate with `idx ≥ todoLen`. -/
def prefetchIdxs (todoLen index batch : Int) : Nat → Nat → List Int
  | 0, _ => []
  | n + 1, i =>
    let idx := index + ((i : Int) + 1) * batch
    if todoLen ≤ idx then []
    else idx :: prefetchIdxs todoLen index batch n (i + 1)

/-- `Base.prefetch`: the produced prefetch entries as (target index, priority)
pairs; the priority of the j-th produced entry is `-j`. -/
def prefetch (todoLen index batch : Int) (numToPrefetch : Nat) : List (Int × Int) :=
  (prefetchIdxs todoLen index batch numToPrefetch 0).enum.map
    (fun p => (p.2, -(p.1 : Int)))

theorem prefetchIdxs_eq_filter_aux (todoLen index batch : Int) (hb : 1 ≤ batch) :
    ∀ (n i : Nat),
      prefetchIdxs todoLen index batch n i =
        ((List.range' i n).map (fun j : Nat => index + ((j : Int) + 1) * batch)).filter
          (fun idx => decide (idx < todoLen)) := by
  intro n
  induction n with
  | zero => intro i; simp [prefetchIdxs]
  | succ n ih =>
    intro i
    rw [List.range'_succ]
    by_cases h : todoLen ≤ index + ((i : Int) + 1) * batch
    · have hall : ∀ j ∈ List.range' (i + 1) n,
          ¬ (index + ((j : Int) + 1) * batch < todoLen) := by
        intro j hj
        have hij : i + 1 ≤ j := (List.mem_range'_1.mp hj).1
        have hmono : ((i : Int) + 1) * batch ≤ ((j : Int) + 1) * batch := by
          have hij' : (i : Int) + 1 ≤ (j : Int) + 1 := by omega
          exact mul_le_mul_of_nonneg_right hij' (by omega)
        omega
      have h1 : decide (index + ((i : Int) + 1) * batch < todoLen) = false := by
        simp; omega
      simp only [prefetchIdxs, h, if_true, List.map_cons, List.filter_cons, h1,
        Bool.false_eq_true, if_false]
      symm
      rw [List.filter_eq_nil_iff]
      intro a ha
      obtain ⟨j, hj, rfl⟩ := List.mem_map.mp ha
      simpa using hall j hj
    · have h1 : decide (index + ((i : Int) + 1) * batch < todoLen) = true := by
        simp; omega
      simp only [prefetchIdxs, h, if_false, List.map_cons, List.filter_cons, h1,
        if_true, ih (i + 1)]

theorem prefetch_get_snd (todoLen index batch : Int) (numToPrefetch : Nat)
    (k : Nat) (hk : k < (prefetch todoLen index batch numToPrefetch).length) :
    ((prefetch todoLen index batch numToPrefetch).get ⟨k, hk⟩).2 = -(k : Int) := by
  have hk' : k < (prefetchIdxs todoLen index batch numToPrefetch 0).enum.length := by
    simpa [prefetch] using hk
  simp [prefetch, List.get_eq_getElem, List.getElem_map, List.getElem_enum]

/-- C2: for every position with `batch ≥ 1` and every prefetch window size,
`Base.prefetch` produces one entry per `i = 1..num_to_prefetch` targeting index
`index + i*batch`, stopping (excluding the candidate) at the first candidate
index that is out of the store's index range (`idx ≥ len(todo)`); priorities
are strictly decreasing in request order; and in the concrete scenario with
store length 25, `index = 0`, `batch = 5`, window 10, the produced entries
target exactly indices 5, 10, 15, 20. -/
theorem prefetch_spec (todoLen index batch : Int) (numToPrefetch : Nat)
    (hb : 1 ≤ batch) :
    ((prefetch todoLen index batch numToPrefetch).map Prod.fst =
        ((List.range numToPrefetch).map
            (fun i : Nat => index + ((i : Int) + 1) * batch)).filter
          (fun idx => decide (idx < todoLen)))
    ∧ (∀ j k : Nat, ∀ hjk : j < k,
        ∀ hk : k < (prefetch todoLen index batch numToPrefetch).length,
        ((prefetch todoLen index batch numToPrefetch).get ⟨k, hk⟩).2 <
          ((prefetch todoLen index batch numToPrefetch).get ⟨j, hjk.trans hk⟩).2)
    ∧ prefetch 25 0 5 10 = [(5, 0), (10, -1), (15, -2), (20, -3)] := by
  refine ⟨?_, ?_, by decide⟩
  · have hmap : (prefetch todoLen index batch numToPrefetch).map Prod.fst =
        prefetchIdxs todoLen index batch numToPrefetch 0 := by
      simp [prefetch, List.map_map, Function.comp_def]
    rw [hmap, prefetchIdxs_eq_filter_aux todoLen index batch hb numToPrefetch 0,
      ← List.range_eq_range']
  · intro j k hjk hk
    rw [prefetch_get_snd todoLen index batch numToPrefetch k hk,
      prefetch_get_snd todoLen index batch numToPrefetch j (hjk.trans hk)]
    omega

/-- Witness for `prefetch_spec`: the concrete prefetch scenario. -/
theorem prefetch_spec_witness :
    prefetch 25 0 5 10 = [(5, 0), (10, -1), (15, -2), (20, -3)] :=
  (prefetch_spec 25 0 5 10 (by decide)).2.2

/-! ### Split cursor (`GraphUpdater.inc_split` / `dec_split`,
proofreading.py lines 359-365)

```
def inc_split(self):
  self.split_index = min(len(self.split_path), self.split_index + 1)
def dec_split(self):
  self.split_index = max(1, self.split_index - 1)
```

`split_index` starts at 1 (`start_split`) and never goes negative, so it is
modelled as `Nat`.
-/

/-- Cursor update of `GraphUpdater.inc_split`: note the upper clamp is
`len(split_path)`, not `len(split_path) - 1`. -/
def inc_split (pathLen cursor : Nat) : Nat := min pathLen (cursor + 1)

/-- Cursor update of `GraphUpdater.dec_split`. -/
def dec_split (cursor : Nat) : Nat := max 1 (cursor - 1)

inductive CursorOp where
  | inc
  | dec
  deriving DecidableEq

/-- Run a finite sequence of `inc_split`/`dec_split` cursor moves. -/
def runCursor (pathLen : Nat) : List CursorOp → Nat → Nat
  | [], c => c
  | op :: ops, c =>
    runCursor pathLen ops (match op with | .inc => inc_split pathLen c | .dec => dec_split c)

/-- Counterexample to C3: with a computed path of length 2 and the cursor at 1
(the only value in the claimed range `[1, len(path)-1]`), `inc_split` moves the
cursor to 2 = `len(path)`, which is outside `[1, len(path)-1]`.  The code
clamps the cursor at `len(path)`, not at `len(path) - 1`. -/
theorem inc_split_exceeds_path_len_sub_one :
    inc_split 2 1 = 2 ∧ ¬ inc_split 2 1 ≤ 2 - 1 := by decide

/-- C3 (amended): `inc_split` and `dec_split` clamp the cursor to the range
`[1, len(path)]` (upper bound `len(path)`, not `len(path) - 1`), so after any
sequence of cursor moves `1 ≤ cursor ≤ len(path)` holds; the edge between
`path[cursor-1]` and `path[cursor]` is addressable only while
`cursor ≤ len(path) - 1`, and `accept_split` is a no-op when
`cursor = len(path)`. -/
theorem cursor_in_bounds (pathLen cursor : Nat) (ops : List CursorOp)
    (hlo : 1 ≤ cursor) (hhi : cursor ≤ pathLen) :
    1 ≤ runCursor pathLen ops cursor ∧ runCursor pathLen ops cursor ≤ pathLen := by
  induction ops generalizing cursor with
  | nil => exact ⟨hlo, hhi⟩
  | cons op ops ih =>
    cases op
    · exact ih (inc_split pathLen cursor) (by simp [inc_split]; omega) (by simp [inc_split])
    · exact ih (dec_split cursor) (by simp [dec_split]) (by simp [dec_split]; omega)

/-- Witness for `cursor_in_bounds`: path of length 4, cursor 1, two advances
and one retreat. -/
theorem cursor_in_bounds_witness :
    1 ≤ runCursor 4 [CursorOp.inc, CursorOp.inc, CursorOp.dec] 1 ∧
      runCursor 4 [CursorOp.inc, CursorOp.inc, CursorOp.dec] 1 ≤ 4 :=
  cursor_in_bounds 4 1 [CursorOp.inc, CursorOp.inc, CursorOp.dec]
    (by decide) (by decide)

/-! ### Agglomeration graph editor (`GraphUpdater`, proofreading.py 290-427)

The `networkx` graph is an undirected graph; we model it by a node list and
an edge list (an edge `(a, b)` connects `a` and `b` in both directions).
-/

structure GGraph where
  nodes : List Nat
  edges : List (Nat × Nat)
  deriving DecidableEq

/-- Neighbours of `u` in the undirected edge list. -/
def nbrs (g : GGraph) (u : Nat) : List Nat :=
  g.edges.filterMap fun e =>
    if e.1 = u then some e.2 else if e.2 = u then some e.1 else none

/-- One breadth-first-search level: extend every frontier path (stored in
reverse, head = current node) by each unvisited neighbour of its head. -/
def bfsExpand (g : GGraph) (visited : List Nat) (frontier : List (List Nat)) :
    List (List Nat) :=
  (frontier.map fun p =>
    match p with
    | [] => []
    | u :: _ => ((nbrs g u).filter fun v => !(visited.contains v)).map
        fun v => v :: p).flatten

def bfsAux (g : GGraph) (tgt : Nat) :
    Nat → List (List Nat) → List Nat → Option (List Nat)
  | 0, _, _ => none
  | fuel + 1, frontier, visited =>
    match frontier.find? (fun p => p.head? == some tgt) with
    | some p => some p.reverse
    | none =>
      let next := bfsExpand g visited frontier
      if next.isEmpty then none
      else bfsAux g tgt fuel next (visited ++ next.map (fun p => p.headD 0))

/-- Models `nx.shortest_path(graph, src, tgt)` for an unweighted graph
(breadth-first search).  `none` stands for the cases where networkx raises —
`NodeNotFound` when an endpoint is not a graph node, `NetworkXNoPath` when the
endpoints are disconnected.  For the concrete graphs used in this file the
shortest path is unique, so the `some` result is the path networkx returns. -/
def shortest_path (g : GGraph) (src tgt : Nat) : Option (List Nat) :=
  if g.nodes.contains src ∧ g.nodes.contains tgt then
    bfsAux g tgt (g.nodes.length + 1) [[src]] [src]
  else none

structure GUState where
  graph : GGraph
  split_objects : List Nat
  split_path : List Nat
  split_index : Nat
  deriving DecidableEq

/-- `GraphUpdater.start_split` (lines 394-405): computes the shortest path
between the two selected endpoints and resets the cursor to 1.  The returned
`Bool` is `true` when the shortest-path call raised: the exception propagates
out of the handler and the assignments to `split_path`/`split_index` (which
follow the raising call) never happen. -/
def start_split (s : GUState) : GUState × Bool :=
  match shortest_path s.graph (s.split_objects.getD 0 0) (s.split_objects.getD 1 0) with
  | none => (s, true)
  | some p => ({ s with split_path := p, split_index := 1 }, false)

/-- `GraphUpdater.add_split` (lines 407-413): appends the clicked segment id
while fewer than two endpoints are selected, then starts the split once two
endpoints are present.  The `Bool` is `true` when `start_split` raised. -/
def add_split (s : GUState) (sid : Nat) : GUState × Bool :=
  let t := if s.split_objects.length < 2
           then { s with split_objects := s.split_objects ++ [sid] } else s
  if t.split_objects.length = 2 then start_split t else (t, false)

/-- `nx.Graph.remove_edge(a, b)` on the edge-list model (the scenarios proved
below only remove edges that are present, so the `NetworkXError` raised by
networkx for a missing edge does not arise). -/
def remove_edge (g : GGraph) (a b : Nat) : GGraph :=
  { g with edges := g.edges.filter fun e => decide (e ≠ (a, b) ∧ e ≠ (b, a)) }

/-- `GraphUpdater.clear_splits` (lines 385-392): resets `split_objects` only;
the remaining statements emit a status message and toggle layer visibility on
the viewer.  `split_path` and `split_index` are left untouched. -/
def clear_splits (s : GUState) : GUState :=
  { s with split_objects := [] }

/-- `GraphUpdater.accept_split` (lines 377-383): reads the edge
`split_path[split_index-1 : split_index+1]`; if it has fewer than two
vertices, does nothing; otherwise removes it from the graph and clears the
selected endpoints. -/
def accept_split (s : GUState) : GUState :=
  let edge := (s.split_path.drop (s.split_index - 1)).take 2
  if edge.length < 2 then s
  else clear_splits { s with graph := remove_edge s.graph (edge.getD 0 0) (edge.getD 1 0) }

/-- `GraphUpdater.inc_split` as a state update. -/
def inc_split_state (s : GUState) : GUState :=
  { s with split_index := inc_split s.split_path.length s.split_index }

/-! #### The split scenario of C4: graph with path 1-2-3-4 -/

def splitDemoGraph : GGraph := ⟨[1, 2, 3, 4], [(1, 2), (2, 3), (3, 4)]⟩

def splitDemoStart : GUState := ⟨splitDemoGraph, [], [], 1⟩

/-- State after selecting endpoints 1 and 4. -/
def splitDemoReviewing : GUState := (add_split (add_split splitDemoStart 1).1 4).1

/-- State after advancing the cursor twice. -/
def splitDemoMoved : GUState := inc_split_state (inc_split_state splitDemoReviewing)

/-- State after committing the split. -/
def splitDemoFinal : GUState := accept_split splitDemoMoved

/-- Counterexample to C4: after `accept_split` in the A-B-C-D scenario the
session is NOT fully cleared — `clear_splits` resets only the endpoint list;
`split_path` is still `[1, 2, 3, 4]` and the cursor is still 3 (a cleared
session would have the initial `split_path = []` and `split_index = 1`). -/
theorem accept_split_leaves_path_and_cursor :
    splitDemoFinal.split_objects = [] ∧
      splitDemoFinal.split_path ≠ [] ∧ splitDemoFinal.split_index ≠ 1 := by decide

/-- C4 (amended): in the graph with path 1-2-3-4, selecting endpoints 1 and 4
yields `split_path = [1,2,3,4]` and cursor 1; advancing the cursor twice gives
cursor 3; `accept_split` removes exactly the edge `(3, 4) =
(path[cursor-1], path[cursor])` from the graph and clears the endpoint list
(returning the session to Idle), while `split_path` and `split_index` retain
their values until the next split recomputes them. -/
theorem split_scenario :
    splitDemoReviewing.split_path = [1, 2, 3, 4]
    ∧ splitDemoReviewing.split_index = 1
    ∧ splitDemoMoved.split_index = 3
    ∧ splitDemoFinal.graph.edges = [(1, 2), (2, 3)]
    ∧ splitDemoFinal.split_objects = []
    ∧ splitDemoFinal.split_path = [1, 2, 3, 4]
    ∧ splitDemoFinal.split_index = 3 := by decide

/-! #### C9: no path between the selected endpoints -/

def noPathGraph : GGraph := ⟨[10, 20], []⟩

def noPathStart : GUState := ⟨noPathGraph, [10], [], 1⟩

/-- Counterexample to C9: selecting a second endpoint that is disconnected
from the first makes the shortest-path call raise; the exception propagates
uncaught out of the `add_split` handler (`true` flag) — it is not converted
into a status message — and the session is not reset to Idle: both endpoints
remain selected. -/
theorem add_split_no_path_raises :
    (add_split noPathStart 20).2 = true ∧
      (add_split noPathStart 20).1.split_objects = [10, 20] := by decide

/-- C9 (amended): whenever one endpoint is selected and the graph has no path
from it to the newly clicked endpoint, `add_split` appends the new endpoint
and then lets the shortest-path exception propagate uncaught out of the event
handler; no status message reports the failure and the session is not reset
(the endpoint list keeps both ids). -/
theorem add_split_no_path (s : GUState) (sid : Nat)
    (h1 : s.split_objects.length = 1)
    (h2 : shortest_path s.graph (s.split_objects.getD 0 0) sid = none) :
    add_split s sid = ({ s with split_objects := s.split_objects ++ [sid] }, true) := by
  obtain ⟨a, ha⟩ : ∃ a, s.split_objects = [a] := by
    cases hso : s.split_objects with
    | nil => simp [hso] at h1
    | cons x t =>
      cases t with
      | nil => exact ⟨x, rfl⟩
      | cons y t2 => simp [hso] at h1
  have h2' : shortest_path s.graph a sid = none := by simpa [ha] using h2
  simp [add_split, start_split, ha, h2']

/-- Witness for `add_split_no_path`: the concrete disconnected two-node
graph. -/
theorem add_split_no_path_witness :
    add_split noPathStart 20 = ({ noPathStart with split_objects := [10, 20] }, true) :=
  add_split_no_path noPathStart 20 rfl (by decide)

/-! ### Merging (`GraphUpdater.merge_segments`, lines 350-352)

```
sids = [sid for sid in self.viewer.state.layers['seg'].segments if sid > 0]
self.graph.add_edges_from(zip(sids, sids[1:]))
```
-/

/-- The edge list handed to `graph.add_edges_from` by
`GraphUpdater.merge_segments`: ids `≤ 0` (the background sentinel) are
dropped, then consecutive pairs of the remaining ids are zipped. -/
def merge_segments (segments : List Int) : List (Int × Int) :=
  let sids := segments.filter fun sid => decide (0 < sid)
  sids.zip sids.tail

/-- `graph.add_edges_from(...)` on an edge-set model of the undirected
graph: the merged graph's edges are the old ones plus the zipped pairs. -/
def merge_graph (E : Set (Int × Int)) (segments : List Int) : Set (Int × Int) :=
  E ∪ { e | e ∈ merge_segments segments }

theorem mem_zip_tail {l : List Int} {a b : Int} :
    (a, b) ∈ l.zip l.tail ↔ ∃ k, l[k]? = some a ∧ l[k + 1]? = some b := by
  induction l with
  | nil => simp
  | cons x t ih =>
    cases t with
    | nil =>
      simp only [List.tail_cons, List.zip_nil_right, List.not_mem_nil, false_iff]
      rintro ⟨k, h1, h2⟩
      simp at h2
    | cons y t2 =>
      simp only [List.tail_cons, List.zip_cons_cons]
      constructor
      · intro h
        rcases List.mem_cons.mp h with h | h
        · obtain ⟨rfl, rfl⟩ : a = x ∧ b = y := by simpa [Prod.ext_iff] using h
          exact ⟨0, by simp, by simp⟩
        · obtain ⟨k, h1, h2⟩ := ih.mp (by simpa using h)
          exact ⟨k + 1, by simpa using h1, by simpa using h2⟩
      · rintro ⟨k, h1, h2⟩
        cases k with
        | zero =>
          simp only [List.getElem?_cons_zero, Option.some.injEq] at h1
          simp only [List.getElem?_cons_succ, List.getElem?_cons_zero,
            Option.some.injEq] at h2
          subst h1; subst h2
          exact List.mem_cons_self _ _
        | succ k =>
          have h1' : (y :: t2)[k]? = some a := by simpa using h1
          have h2' : (y :: t2)[k + 1]? = some b := by simpa using h2
          have hmem : (a, b) ∈ (y :: t2).zip (y :: t2).tail := ih.mpr ⟨k, h1', h2'⟩
          exact List.mem_cons.mpr (Or.inr (by simpa using hmem))

/-- C5: `merge_segments` first drops ids with value ≤ 0 and then adds an edge
between each consecutive pair of the remaining ids, and no other edges: an
edge is in the merged graph iff it was already present or its two endpoints
are adjacent in the filtered id sequence.  In particular
`merge([5, 7, 0, 9])` adds exactly the edges `(5, 7)` and `(7, 9)`. -/
theorem merge_segments_spec :
    (∀ (E : Set (Int × Int)) (segments : List Int) (e : Int × Int),
        e ∈ merge_graph E segments ↔
          e ∈ E ∨ ∃ k,
            (segments.filter fun sid => decide (0 < sid))[k]? = some e.1 ∧
            (segments.filter fun sid => decide (0 < sid))[k + 1]? = some e.2)
    ∧ merge_segments [5, 7, 0, 9] = [(5, 7), (7, 9)] := by
  constructor
  · intro E segments e
    have he : e = (e.1, e.2) := rfl
    rw [merge_graph, Set.mem_union, Set.mem_setOf_eq, merge_segments, he,
      mem_zip_tail]
  · decide

/-! ### Classification (`ObjectClassification.classify`, lines 279-287)

```
sid = list(self.todo[self.index]['seg'])[0]
for v in self.results.values():
  v -= set([sid])
if cls is not None:
  self.results[cls].add(sid)
```
-/

/-- `ObjectClassification.classify` acting on the `self.results` map (a
`defaultdict(set)` from class label to id set, modelled as a total function
defaulting to the empty set): `sid` is removed from every label's set, then
added to `cls`'s set unless `cls` is the cancellation sentinel `None`.  (The
trailing `next_batch` call only moves the position.) -/
def classify (results : String → Finset Int) (sid : Int) (cls : Option String) :
    String → Finset Int :=
  fun label =>
    let removed := (results label).erase sid
    if cls = some label then insert sid removed else removed

/-- C6: for every id and every pair of labels X, Y (including the
cancellation sentinel `none`), after `classify sid X` followed by
`classify sid Y` the id appears in at most one label's set: any two labels
whose sets contain it are equal. -/
theorem classify_at_most_one (results : String → Finset Int) (sid : Int)
    (X Y : Option String) (l1 l2 : String)
    (h1 : sid ∈ classify (classify results sid X) sid Y l1)
    (h2 : sid ∈ classify (classify results sid X) sid Y l2) :
    l1 = l2 := by
  have key : ∀ l, sid ∈ classify (classify results sid X) sid Y l → Y = some l := by
    intro l hl
    by_cases hY : Y = some l
    · exact hY
    · simp [classify, hY] at hl
  have k1 := key l1 h1
  have k2 := key l2 h2
  rw [k1] at k2
  exact Option.some.inj k2

/-- Witness for `classify_at_most_one`: classify id 5 as "a", then as "b";
the id then sits in the set of label "b" (and of no other label). -/
theorem classify_at_most_one_witness : ("b" : String) = "b" :=
  classify_at_most_one (fun _ => ∅) 5 (some "a") (some "b") "b" "b"
    (by decide) (by decide)

/-! ### `ObjectReview.mark_removed_bad` (lines 231-237)

```
original = set(self.list_segments())
new_bad = original - set(self.viewer.state.layers['seg'].segments)
if new_bad:
  self.bad |= new_bad
  self.update_msg('marked bad: %r' % (new_bad,))
```
-/

/-- `ObjectReview.mark_removed_bad`: `original` is the active batch's segment
set, `current` the selection still displayed in the viewer; the difference is
unioned into the bad set, with a status report (the `Bool`) only when it is
non-empty. -/
def mark_removed_bad (bad original current : Finset Int) : Finset Int × Bool :=
  let new_bad := original \ current
  if new_bad ≠ ∅ then (bad ∪ new_bad, true) else (bad, false)

/-- C7: with `current ⊆ original`, `mark_removed_bad` unions exactly
`original - current` into the bad set; when `current = original` the bad set
is unchanged and no report is made. -/
theorem mark_removed_bad_spec (bad original current : Finset Int)
    (h : current ⊆ original) :
    (mark_removed_bad bad original current).1 = bad ∪ (original \ current)
    ∧ (current = original → mark_removed_bad bad original current = (bad, false)) := by
  constructor
  · by_cases hx : original \ current = ∅
    · simp [mark_removed_bad, hx]
    · simp [mark_removed_bad, hx]
  · rintro rfl
    simp [mark_removed_bad]

/-- Witness for `mark_removed_bad_spec`: the reviewer dropped id 2 from the
selection `{1, 2}`. -/
theorem mark_removed_bad_spec_witness :
    (mark_removed_bad ∅ {1, 2} {1}).1 = ∅ ∪ ({1, 2} \ {1}) ∧
      (({1} : Finset Int) = {1, 2} → mark_removed_bad ∅ {1, 2} {1} = (∅, false)) :=
  mark_removed_bad_spec ∅ {1, 2} {1} (by decide)

/-! ### Connected-component expansion (`GraphUpdater.add_ccs`, lines 367-375)

```
curr = set(self.viewer.state.layers['seg'].segments)
for sid in self.viewer.state.layers['seg'].segments:
  if sid in self.graph:
    curr |= set(nx.node_connected_component(self.graph, sid))
self.update_segments(curr)
```
-/

/-- The agglomeration graph as `add_ccs` sees it: a node set (for the
`sid in self.graph` test) and an adjacency relation
(`nx.node_connected_component` walks edges). -/
structure CCGraph where
  nodes : Set Nat
  adj : Nat → Nat → Prop

/-- The set computed by `GraphUpdater.add_ccs` (the semaphore guard and the
viewer update aside): the displayed segments, unioned with
`nx.node_connected_component(graph, sid)` — the vertices reachable from
`sid` — for every displayed `sid` that is a graph node; ids absent from the
graph pass through unchanged. -/
def add_ccs (g : CCGraph) (segs : Set Nat) : Set Nat :=
  segs ∪ { t | ∃ s ∈ segs, s ∈ g.nodes ∧ Relation.ReflTransGen g.adj s t }

/-- C8: `add_ccs` is idempotent: for every graph and every set of selected
ids, expanding the result of an expansion adds nothing new. -/
theorem add_ccs_idem (g : CCGraph) (segs : Set Nat) :
    add_ccs g (add_ccs g segs) = add_ccs g segs := by
  apply Set.Subset.antisymm
  · intro t ht
    simp only [add_ccs, Set.mem_union, Set.mem_setOf_eq] at ht ⊢
    rcases ht with ht | ⟨s, hs, hn, hr⟩
    · exact ht
    · rcases hs with hs | ⟨s0, hs0, hn0, hr0⟩
      · exact Or.inr ⟨s, hs, hn, hr⟩
      · exact Or.inr ⟨s0, hs0, hn0, hr0.trans hr⟩
  · intro t ht
    simp only [add_ccs, Set.mem_union, Set.mem_setOf_eq] at ht ⊢
    exact Or.inl ht

/-! ### `ObjectReview.mark_bad` (lines 217-229) and the identical
`GraphUpdater.mark_bad` (lines 415-427)

```
if self.batch > 1:
  self.update_msg('decrease batch to 1 to mark objects bad')
  return
sids = self.todo[self.index]['seg']
if len(sids) == 1:
  self.bad.add(list(sids)[0])
else:
  self.bad.add(frozenset(sids))
self.update_msg('marked bad: %r' % (sids,))
self.next_batch()
```
-/

/-- An element of the bad set: a bare id or a frozenset of ids. -/
inductive BadElem where
  | single (id : Int)
  | group (ids : Finset Int)
  deriving DecidableEq

/-- The review state `mark_bad` touches: the work-item store (each item's
`'seg'` id list), the position, and the bad set. -/
structure RState where
  todo : List (List Int)
  index : Int
  batch : Int
  bad : Finset BadElem
  deriving DecidableEq

/-- `Base.next_batch` acting on the review state (same saturating arithmetic
as `next_batch`). -/
def rstate_next_batch (s : RState) : RState :=
  { s with index := min (s.index + s.batch) ((s.todo.length : Int) - 1) }

/-- The element `mark_bad` inserts: the sole id when the current work item
lists exactly one id, otherwise the frozenset of its ids. -/
def bad_verdict (sids : List Int) : BadElem :=
  if sids.length = 1 then .single (sids.headD 0) else .group sids.toFinset

/-- `mark_bad`: with `batch > 1` only a status message is emitted and nothing
else happens; with `batch = 1` the verdict for the current work item is added
to the bad set and the position advances to the next batch. -/
def mark_bad (s : RState) : RState × String :=
  if 1 < s.batch then (s, "decrease batch to 1 to mark objects bad")
  else
    let sids := s.todo.getD s.index.toNat []
    (rstate_next_batch { s with bad := insert (bad_verdict sids) s.bad }, "marked bad")

/-- C10: whenever `batch > 1`, `mark_bad` leaves the whole state (bad set and
position) unchanged and only emits a status message; the marking — inserting
the sole id when the current work item has one id and a frozenset otherwise,
then advancing to the next batch — happens exactly when `batch = 1` (the
batch size is always ≥ 1). -/
theorem mark_bad_spec (s : RState) (_hb : 1 ≤ s.batch) :
    (1 < s.batch → mark_bad s = (s, "decrease batch to 1 to mark objects bad"))
    ∧ (s.batch = 1 →
        (mark_bad s).1.bad = insert (bad_verdict (s.todo.getD s.index.toNat [])) s.bad
        ∧ (mark_bad s).1.index = min (s.index + 1) ((s.todo.length : Int) - 1)
        ∧ (mark_bad s).2 = "marked bad") := by
  constructor
  · intro h
    simp [mark_bad, h]
  · intro h
    have h2 : ¬ 1 < s.batch := by omega
    simp [mark_bad, h2, rstate_next_batch, h]

/-- Witness for `mark_bad_spec`: with batch 2 the state is returned
untouched. -/
theorem mark_bad_spec_witness :
    mark_bad ⟨[[7]], 0, 2, ∅⟩ =
      (⟨[[7]], 0, 2, ∅⟩, "decrease batch to 1 to mark objects bad") :=
  (mark_bad_spec ⟨[[7]], 0, 2, ∅⟩ (by decide)).1 (by decide)

end Proofreading
